import Mathlib

/-!
Verification development for the juicity server (src/server/server.go).

The Go code is shallowly embedded: each server function becomes a pure Lean
function over explicit inputs standing for the outcomes of its suspension
points (stream accepts, header reads, dials, relays).  Machine values are
modelled as Nat, Go errors as a record of the classification facts the server
inspects, and the cancellation tree of handleConn as an explicit record of
the two scopes.
-/

namespace Juicity

/-- Model of a Go error value, keeping exactly the facts the server code
inspects: whether errors.Is with io.EOF holds on the chain, whether
errors.As finds a net.Error whose Timeout method returns true, and the
text returned by the Error method. -/
structure GoError where
  isEOF : Bool
  isNetTimeout : Bool
  msg : String
deriving DecidableEq

/-- The stdlib error context.Canceled, which ctx.Err() returns once a
context has been cancelled: a plain error with text "context canceled".
It is not a net.Error, hence not classified as a timeout. -/
def ctxCanceled : GoError := ⟨false, false, "context canceled"⟩

/-- The close code tuic.AuthenticationFailed from the external tuic
package.  The server never inspects its numeric value, it only passes it
to CloseWithError; any fixed value models it faithfully. -/
def tuicAuthenticationFailed : Nat := 0x11

/-- The byte juicity.Version0 from the external juicity package, the one
protocol version the server recognizes. -/
def juicityVersion0 : Nat := 0

/-- The command type tuic.AuthenticateType from the external tuic package,
the one command type handleAuth accepts. -/
def tuicAuthenticateType : Nat := 0

/-- Transport connection close state.  CloseWithError on a quic connection
is idempotent: the first close fixes the (code, reason) pair the peer
observes, later calls are no-ops. -/
structure ConnState where
  closed : Option (Nat × String)
deriving DecidableEq

/-- conn.CloseWithError(code, reason): records the pair if the connection
is still open, otherwise leaves the recorded close unchanged. -/
def closeWithError (c : ConnState) (code : Nat) (reason : String) : ConnState :=
  match c.closed with
  | some _ => c
  | none => ⟨some (code, reason)⟩

/-- The two cancellation scopes handleConn builds per connection: ctx (the
root scope, from context.WithCancel(Background)) and authCtx (a child of
ctx, from context.WithCancel(ctx)).  rootCancelled records that cancel()
was called on the root; authDone records that authDone() was called on the
child. -/
structure ConnScopes where
  rootCancelled : Bool
  authDone : Bool
deriving DecidableEq

/-- Whether authCtx.Done() is closed: a child context is done when it was
cancelled itself or when its parent was cancelled. -/
def authCtxDone (s : ConnScopes) : Bool := s.authDone || s.rootCancelled

/-- Errors handleAuth can return, mirroring each return site of the Go
function: errors from AcceptUniStream or Peek returned unchanged, wrapped
errors from ReadCommandHead, ReadAuthenticateWithHead and GenToken, and
the three protocol failures built from ErrUnexpectedVersion,
ErrUnexpectedCmdType and ErrAuthenticationFailed. -/
inductive AuthError where
  | ioErr (e : GoError)
  | readCommandHead (e : GoError)
  | readAuthenticateWithHead (e : GoError)
  | genTokenErr (e : GoError)
  | unexpectedVersion (v : Nat)
  | unexpectedCmdType (t : Nat)
  | authenticationFailed (u : Nat)
deriving DecidableEq

instance {ε α : Type} [DecidableEq ε] [DecidableEq α] : DecidableEq (Except ε α)
  | .error e, .error f =>
    if h : e = f then .isTrue (by rw [h]) else .isFalse (by intro hh; cases hh; exact h rfl)
  | .error _, .ok _ => .isFalse (by intro h; cases h)
  | .ok _, .error _ => .isFalse (by intro h; cases h)
  | .ok a, .ok b =>
    if h : a = b then .isTrue (by rw [h]) else .isFalse (by intro hh; cases hh; exact h rfl)

/-- The data handleAuth reads off the control stream once AcceptUniStream
succeeded: the peeked first byte, then the outcome of ReadCommandHead
(the TYPE field on success), then the outcome of ReadAuthenticateWithHead
(the UUID and TOKEN fields on success).  UUID models the 128-bit
identifier, TOKEN the 256-bit token, as numbers compared for equality. -/
structure AuthWire where
  firstByte : Nat
  cmdType : Except GoError Nat
  authBody : Except GoError (Nat × Nat)
deriving DecidableEq

/-- handleAuth, embedded from src/server/server.go lines 235-278.
users is the credential map of the server; tls stands for the value of
conn.ConnectionState(); genToken for the external tuic.GenToken applied
to (tls, uuid, password); accept for the joint outcome of AcceptUniStream
and the first-byte Peek.  Returns the result of the Go function together
with the connection close state: on a token mismatch the connection is
closed immediately with the authentication-failure code and the text of
ErrAuthenticationFailed. -/
def handleAuth (users : Nat → Option String) (tls : Nat)
    (genToken : Nat → Nat → String → Except GoError Nat)
    (accept : Except GoError AuthWire) (c : ConnState) :
    Except AuthError Nat × ConnState :=
  match accept with
  | .error e => (.error (.ioErr e), c)
  | .ok w =>
    if w.firstByte = juicityVersion0 then
      match w.cmdType with
      | .error e => (.error (.readCommandHead e), c)
      | .ok ty =>
        if ty = tuicAuthenticateType then
          match w.authBody with
          | .error e => (.error (.readAuthenticateWithHead e), c)
          | .ok (u, tok) =>
            match users u with
            | some password =>
              match genToken tls u password with
              | .error e => (.error (.genTokenErr e), c)
              | .ok expected =>
                if expected = tok then
                  (.ok u, c)
                else
                  (.error (.authenticationFailed u),
                    closeWithError c tuicAuthenticationFailed "authentication failed")
            | none => (.error (.authenticationFailed u), c)
        else (.error (.unexpectedCmdType ty), c)
    else (.error (.unexpectedVersion w.firstByte), c)

/-- The tail of the authentication goroutine of handleConn (src/server/
server.go lines 144-154), run when handleAuth has returned: on any error
it calls cancel() on the root scope and CloseWithError with the
authentication-failure code and an empty reason; on success it calls
authDone() only. -/
def authTaskFinish (res : Except AuthError Nat) (s : ConnScopes) (c : ConnState) :
    ConnScopes × ConnState :=
  match res with
  | .error _ => ({ s with rootCancelled := true }, closeWithError c tuicAuthenticationFailed "")
  | .ok _ => ({ s with authDone := true }, c)

/-- The close the client ultimately observes for a connection whose whole
life is one authentication attempt: handleAuth runs from an open
connection and fresh scopes, then the goroutine tail of handleConn
reacts to its result. -/
def observedClose (users : Nat → Option String) (tls : Nat)
    (genToken : Nat → Nat → String → Except GoError Nat)
    (accept : Except GoError AuthWire) : Option (Nat × String) :=
  let r := handleAuth users tls genToken accept ⟨none⟩
  (authTaskFinish r.1 ⟨false, false⟩ r.2).2.closed

/-- The metadata the juicity framing adapter exposes after the header
read: lConn.Metadata with its Network, Hostname and Port fields. -/
structure Metadata where
  network : String
  hostname : String
  port : Nat
deriving DecidableEq

/-- The inputs of one handleStream run: the outcome of the header read on
the wrapped stream, the connection scopes as the stream observes them at
the gate, and the outcomes of the dial and of the two relay calls in case
they are reached. -/
structure StreamEnv where
  headerRead : Except GoError Metadata
  scopes : ConnScopes
  dial : Except GoError Unit
  relayTCP : Option GoError
  relayUoT : Option GoError
deriving DecidableEq

/-- What one finished handleStream run did: whether dialer.Dial was
invoked, whether a relay call (RelayTCP or RelayUoT) was invoked, whether
the stream was closed (the deferred Close), and the returned error. -/
structure StreamTrace where
  dialed : Bool
  relayed : Bool
  streamClosed : Bool
  result : Option GoError
deriving DecidableEq

/-- Outcome of handleStream against a fixed environment: either it is
still blocked at the receive on authCtx.Done(), or it returned with a
trace. -/
inductive StreamOutcome where
  | blocked
  | done (t : StreamTrace)
deriving DecidableEq

/-- The benign-relay-error test of handleStream: errors.Is io.EOF, or a
net.Error timeout, or an error text ending in "with error code 0". -/
def benignRelayErr (e : GoError) : Bool :=
  e.isEOF || e.isNetTimeout || e.msg.endsWith "with error code 0"

/-- fmt.Errorf with a text and a wrapping verb: the chain facts of the
wrapped error are preserved, the text is prefixed. -/
def wrapErr (pre : String) (e : GoError) : GoError :=
  ⟨e.isEOF, e.isNetTimeout, pre ++ e.msg⟩

/-- The error of the default branch of the network switch in
handleStream. -/
def unexpectedNetworkErr (network : String) : GoError :=
  ⟨false, false, "unexpected network: " ++ network⟩

/-- handleStream, embedded from src/server/server.go lines 170-233.  The
deferred stream.Close always runs on return, so every done trace has
streamClosed true.  A failed header read returns that error at once; a
parsed stream first waits on authCtx.Done() (outcome blocked while the
auth scope is unresolved), then checks ctx.Done() and returns ctx.Err(),
that is context.Canceled, if the root scope was cancelled; otherwise it
dispatches on the network field: tcp dials and relays with the timeout
and benign-error classifications of the source, udp hands the dialer to
RelayUoT, anything else fails with the unexpected-network error. -/
def handleStream (env : StreamEnv) : StreamOutcome :=
  match env.headerRead with
  | .error e => .done ⟨false, false, true, some e⟩
  | .ok mdata =>
    if authCtxDone env.scopes then
      if env.scopes.rootCancelled then
        .done ⟨false, false, true, some ctxCanceled⟩
      else if mdata.network = "tcp" then
        match env.dial with
        | .error e =>
          if e.isNetTimeout then .done ⟨true, false, true, none⟩
          else .done ⟨true, false, true, some e⟩
        | .ok _ =>
          match env.relayTCP with
          | none => .done ⟨true, true, true, none⟩
          | some e =>
            if benignRelayErr e then .done ⟨true, true, true, none⟩
            else .done ⟨true, true, true, some (wrapErr "relay tcp error: " e)⟩
      else if mdata.network = "udp" then
        match env.relayUoT with
        | none => .done ⟨false, true, true, none⟩
        | some e =>
          if benignRelayErr e then .done ⟨false, true, true, none⟩
          else .done ⟨false, true, true, some (wrapErr "relay udp error: " e)⟩
      else
        .done ⟨false, false, true, some (unexpectedNetworkErr mdata.network)⟩
    else .blocked

/-- Whether a handleStream outcome invoked dialer.Dial. -/
def dialedOf : StreamOutcome → Bool
  | .blocked => false
  | .done t => t.dialed

/-- Whether a handleStream outcome invoked the relay executor. -/
def relayedOf : StreamOutcome → Bool
  | .blocked => false
  | .done t => t.relayed

/-- The stream concurrency limit the Server carries: New sets
maxOpenIncomingStreams to the literal 100. -/
def newMaxOpenIncomingStreams : Nat := 100

/-- The headroom computation at the top of Serve:
limit + math.Ceil(float64(limit) / 10.0) cast back to an integer.  For
every value in range (the field is always 100, and float64 arithmetic is
exact below 2 to the 53rd) the float expression equals ceiling division
by 10, written here on Nat. -/
def advertisedMaxStreams (n : Nat) : Nat := n + (n + 9) / 10

/-- The fields of the quic.Config literal in Serve that the claims are
about, with the keepalive and datagram settings of the source. -/
structure QuicCfg where
  maxIncomingStreams : Nat
  maxIncomingUniStreams : Nat
  keepAlivePeriodSeconds : Nat
  disablePathMTUDiscovery : Bool
  enableDatagrams : Bool
deriving DecidableEq

/-- The quic.Config Serve passes to ListenAddr, as a function of the
stream limit of the server: both incoming-stream maxima get the headroom
value. -/
def serveQuicConfig (limit : Nat) : QuicCfg :=
  ⟨advertisedMaxStreams limit, advertisedMaxStreams limit, 10, false, false⟩

/-- The filter of the per-connection goroutine of Serve (src/server/
server.go lines 124-134): the handleConn error is silently dropped
exactly when errors.As finds a net.Error whose Timeout method returns
true; every other error reaches logger.Warn. -/
def serveWarnsOn (e : GoError) : Bool := !e.isNetTimeout

/-- The error the stream-accept loop of handleConn hands back once the
root scope is cancelled: AcceptStream takes ctx and yields ctx.Err() when
that context is done, and a cancelled context reports context.Canceled. -/
def acceptErrOnRootCancel : GoError := ctxCanceled

/-- The accept loop of Serve folded over a list of per-connection
handleConn results (none for a connection whose handler returned nil):
it emits the warnings that get logged and keeps accepting, no
per-connection result stops it. -/
def serveLoop : List (Option GoError) → List GoError
  | [] => []
  | none :: rest => serveLoop rest
  | some e :: rest =>
    if e.isNetTimeout then serveLoop rest else e :: serveLoop rest

/-- The Options record New consumes.  The Go users field is a map from
identifier text to password; map iteration order is abstracted as a
list of pairs. -/
structure GoOptions where
  users : List (String × String)
  certificate : String
  privateKey : String
  congestionControl : String
  fwmark : Nat
  sendThrough : String

/-- The dialer New selects: direct.FullconeDirect, or the source-bound
direct.NewDirectDialerLaddr(true, lAddr) when SendThrough is set.
netip.Addr is modelled as Nat. -/
inductive Dialer where
  | fullconeDirect
  | directLaddr (fullcone : Bool) (laddr : Nat)
deriving DecidableEq

/-- The Server fields New fills that the claims are about. -/
structure ServerModel where
  users : List (Nat × String)
  dialer : Dialer
  maxOpenIncomingStreams : Nat
  congestionControl : String
  cwnd : Nat
  fwmark : Nat
deriving DecidableEq

/-- The credential-building loop at the top of New: each identifier text
goes through uuid.Parse and the first failure aborts with the wrapping
error of the source. -/
def parseUsers (uuidParse : String → Option Nat) :
    List (String × String) → Except GoError (List (Nat × String))
  | [] => .ok []
  | (s, password) :: rest =>
    match uuidParse s with
    | none => .error ⟨false, false, "parse uuid(" ++ s ++ ")"⟩
    | some id =>
      match parseUsers uuidParse rest with
      | .error e => .error e
      | .ok us => .ok ((id, password) :: us)

/-- New, embedded from src/server/server.go lines 62-98.  The external
library calls uuid.Parse, tls.LoadX509KeyPair and netip.ParseAddr are
parameters returning none on failure; the certificate value itself is
irrelevant to the claims.  The dialer starts as FullconeDirect and is
replaced by the source-bound dialer when SendThrough is non-empty;
maxOpenIncomingStreams is 100 and cwnd is 10. -/
def New (uuidParse : String → Option Nat)
    (loadKeyPair : String → String → Option Nat)
    (parseAddr : String → Option Nat)
    (opts : GoOptions) : Except GoError ServerModel :=
  match parseUsers uuidParse opts.users with
  | .error e => .error e
  | .ok users =>
    match loadKeyPair opts.certificate opts.privateKey with
    | none => .error ⟨false, false, "load X509 key pair"⟩
    | some _ =>
      if opts.sendThrough = "" then
        .ok ⟨users, .fullconeDirect, 100, opts.congestionControl, 10, opts.fwmark⟩
      else
        match parseAddr opts.sendThrough with
        | none => .error ⟨false, false, "parse send_through"⟩
        | some a =>
          .ok ⟨users, .directLaddr true a, 100, opts.congestionControl, 10, opts.fwmark⟩

section Samples

/-- A sample tcp relay request. -/
def mdTcp : Metadata := ⟨"tcp", "example.com", 80⟩

/-- A sample parsed stream on a connection whose authentication is still
pending: both scopes untouched. -/
def envPendingAuth : StreamEnv := ⟨.ok mdTcp, ⟨false, false⟩, .ok (), none, none⟩

/-- A sample parsed stream on a connection whose authentication failed:
root scope cancelled, auth scope never resolved by authDone. -/
def envAuthFailed : StreamEnv := ⟨.ok mdTcp, ⟨true, false⟩, .ok (), none, none⟩

/-- A sample stream whose header read failed, on a connection whose
authentication is still pending. -/
def envBadHeader : StreamEnv :=
  ⟨.error ⟨false, false, "read: broken header"⟩, ⟨false, false⟩, .ok (), none, none⟩

/-- A sample relay request with an unsupported network kind, on an
authenticated connection. -/
def mdBogus : Metadata := ⟨"unix", "example.com", 80⟩

/-- A sample stream carrying the unsupported request on an authenticated
connection: auth scope resolved, root scope alive. -/
def envBogusNet : StreamEnv := ⟨.ok mdBogus, ⟨false, true⟩, .ok (), none, none⟩

/-- A sample timed-out dial outcome. -/
def dialTimeoutErr : GoError := ⟨false, true, "dial tcp: i/o timeout"⟩

/-- A sample tcp stream on an authenticated connection whose dial timed
out. -/
def envDialTimeout : StreamEnv :=
  ⟨.ok mdTcp, ⟨false, true⟩, .error dialTimeoutErr, none, none⟩

end Samples

/-- C1: for a data stream whose header parse succeeded, handleStream stays
blocked at the gate while the auth scope of the connection is unresolved;
once it resolves with the root scope cancelled, handleStream returns the
cancellation error of the root scope and invokes neither the dialer nor
the relay executor; and on a connection where authentication never
succeeded (authDone never fired) no stream of the connection dials or
relays, so every such stream relays zero bytes. -/
theorem handleStream_auth_gate :
    (∀ env : StreamEnv, ∀ md : Metadata, env.headerRead = .ok md →
      (authCtxDone env.scopes = false → handleStream env = .blocked)
      ∧ (env.scopes.rootCancelled = true →
          handleStream env = .done ⟨false, false, true, some ctxCanceled⟩))
    ∧ (∀ env : StreamEnv, env.scopes.authDone = false →
        dialedOf (handleStream env) = false ∧ relayedOf (handleStream env) = false) := by
  constructor
  · intro env md h
    refine ⟨fun hA => ?_, fun hR => ?_⟩
    · simp [handleStream, h, hA]
    · have hA : authCtxDone env.scopes = true := by simp [authCtxDone, hR]
      simp [handleStream, h, hA, hR]
  · intro env hD
    cases hHR : env.headerRead with
    | error e => simp [handleStream, hHR, dialedOf, relayedOf]
    | ok md =>
      cases hR : env.scopes.rootCancelled with
      | false => simp [handleStream, hHR, authCtxDone, hD, hR, dialedOf, relayedOf]
      | true => simp [handleStream, hHR, authCtxDone, hD, hR, dialedOf, relayedOf]

/-- C1 witness: with the auth scope pending the sample tcp stream blocks;
with the root scope cancelled it returns context.Canceled, nothing dialed,
nothing relayed. -/
theorem handleStream_auth_gate_w :
    handleStream envPendingAuth = .blocked
    ∧ handleStream envAuthFailed = .done ⟨false, false, true, some ctxCanceled⟩ :=
  ⟨(handleStream_auth_gate.1 envPendingAuth mdTcp rfl).1 rfl,
   (handleStream_auth_gate.1 envAuthFailed mdTcp rfl).2 rfl⟩

/-- C10: a failed header read makes handleStream return that very error
at once, stream closed, nothing dialed, nothing relayed, whatever the
state of the two scopes; a successfully parsed stream instead waits at
the gate while the auth scope is unresolved. -/
theorem handleStream_header_error :
    (∀ env : StreamEnv, ∀ e : GoError, env.headerRead = .error e →
      handleStream env = .done ⟨false, false, true, some e⟩)
    ∧ (∀ env : StreamEnv, ∀ md : Metadata, env.headerRead = .ok md →
        authCtxDone env.scopes = false → handleStream env = .blocked) := by
  constructor
  · intro env e h
    simp [handleStream, h]
  · intro env md h hA
    simp [handleStream, h, hA]

/-- C10 witness: the sample stream with the broken header resolves with
its read error while authentication is still pending. -/
theorem handleStream_header_error_w :
    handleStream envBadHeader
      = .done ⟨false, false, true, some ⟨false, false, "read: broken header"⟩⟩ :=
  handleStream_header_error.1 envBadHeader ⟨false, false, "read: broken header"⟩ rfl

/-- C9: a parsed stream whose network kind is neither tcp nor udp never
invokes the dialer; when the gate opens with the root scope alive it
fails with the unexpected-network error and no relay happens. -/
theorem handleStream_unexpected_network :
    ∀ env : StreamEnv, ∀ md : Metadata, env.headerRead = .ok md →
      md.network ≠ "tcp" → md.network ≠ "udp" →
      dialedOf (handleStream env) = false
      ∧ (authCtxDone env.scopes = true → env.scopes.rootCancelled = false →
          handleStream env =
            .done ⟨false, false, true, some (unexpectedNetworkErr md.network)⟩) := by
  intro env md h h1 h2
  constructor
  · cases hA : authCtxDone env.scopes with
    | false => simp [handleStream, h, hA, dialedOf]
    | true =>
      cases hR : env.scopes.rootCancelled with
      | true => simp [handleStream, h, hA, hR, dialedOf]
      | false => simp [handleStream, h, hA, hR, h1, h2, dialedOf]
  · intro hA hR
    simp [handleStream, h, hA, hR, h1, h2]

/-- C9 witness: the sample stream with network kind unix on an
authenticated connection dials nothing and fails with the
unexpected-network error. -/
theorem handleStream_unexpected_network_w :
    dialedOf (handleStream envBogusNet) = false
    ∧ handleStream envBogusNet
        = .done ⟨false, false, true, some (unexpectedNetworkErr "unix")⟩ := by
  have h := handleStream_unexpected_network envBogusNet mdBogus rfl
    (by decide) (by decide)
  exact ⟨h.1, h.2 rfl rfl⟩

/-- C6: on an authenticated connection, a tcp dial failure that is a net
timeout yields a nil result with no relay, any other dial failure is
returned unchanged; a tcp or udp relay error that is EOF, a net timeout,
or whose text ends in "with error code 0" yields a nil result, every
other relay error comes back wrapped with the corresponding relay
prefix. -/
theorem handleStream_error_classification :
    ∀ env : StreamEnv, ∀ md : Metadata, env.headerRead = .ok md →
      authCtxDone env.scopes = true → env.scopes.rootCancelled = false →
      (∀ e : GoError, md.network = "tcp" → env.dial = .error e →
        (e.isNetTimeout = true → handleStream env = .done ⟨true, false, true, none⟩)
        ∧ (e.isNetTimeout = false → handleStream env = .done ⟨true, false, true, some e⟩))
      ∧ (∀ e : GoError, md.network = "tcp" → env.dial = .ok () → env.relayTCP = some e →
        (benignRelayErr e = true → handleStream env = .done ⟨true, true, true, none⟩)
        ∧ (benignRelayErr e = false →
            handleStream env
              = .done ⟨true, true, true, some (wrapErr "relay tcp error: " e)⟩))
      ∧ (∀ e : GoError, md.network = "udp" → env.relayUoT = some e →
        (benignRelayErr e = true → handleStream env = .done ⟨false, true, true, none⟩)
        ∧ (benignRelayErr e = false →
            handleStream env
              = .done ⟨false, true, true, some (wrapErr "relay udp error: " e)⟩)) := by
  intro env md h hA hR
  refine ⟨fun e hn hd => ⟨fun ht => ?_, fun ht => ?_⟩,
    fun e hn hd hr => ⟨fun hb => ?_, fun hb => ?_⟩,
    fun e hn hr => ⟨fun hb => ?_, fun hb => ?_⟩⟩
  · simp [handleStream, h, hA, hR, hn, hd, ht]
  · simp [handleStream, h, hA, hR, hn, hd, ht]
  · simp [handleStream, h, hA, hR, hn, hd, hr, hb]
  · simp [handleStream, h, hA, hR, hn, hd, hr, hb]
  · simp [handleStream, h, hA, hR, hn, hr, hb]
  · simp [handleStream, h, hA, hR, hn, hr, hb]

/-- C6 witness: the sample tcp stream whose dial timed out resolves with
a nil result and no relay. -/
theorem handleStream_error_classification_w :
    handleStream envDialTimeout = .done ⟨true, false, true, none⟩ :=
  ((handleStream_error_classification envDialTimeout mdTcp rfl rfl rfl).1
    dialTimeoutErr rfl rfl).1 rfl

/-- C2: when the authentication task of handleConn finishes from live
scopes: on any handleAuth error it cancels the root scope, which also
releases every waiter on the auth scope, and the connection ends up
closed with the authentication-failure code (a prior mismatch-path close
already carried that code, the second close is a no-op); on success it
resolves only the auth scope, leaves the root scope alive and does not
touch the connection. -/
theorem authTaskFinish_spec :
    ∀ s : ConnScopes, ∀ c : ConnState, ∀ e : AuthError, ∀ u : Nat,
      s.rootCancelled = false →
      ((authTaskFinish (.error e) s c).1.rootCancelled = true
        ∧ authCtxDone (authTaskFinish (.error e) s c).1 = true
        ∧ ((∀ q ∈ c.closed, q.1 = tuicAuthenticationFailed) →
            ∃ r, (authTaskFinish (.error e) s c).2.closed
              = some (tuicAuthenticationFailed, r)))
      ∧ ((authTaskFinish (.ok u) s c).1.authDone = true
        ∧ (authTaskFinish (.ok u) s c).1.rootCancelled = false
        ∧ authCtxDone (authTaskFinish (.ok u) s c).1 = true
        ∧ (authTaskFinish (.ok u) s c).2 = c) := by
  intro s c e u hs
  refine ⟨⟨rfl, by simp [authTaskFinish, authCtxDone], fun hq => ?_⟩,
    rfl, by simp [authTaskFinish, hs], by simp [authTaskFinish, authCtxDone], rfl⟩
  cases hc : c.closed with
  | none => exact ⟨"", by simp [authTaskFinish, closeWithError, hc]⟩
  | some q =>
    have hq1 := hq q (by simp [hc])
    exact ⟨q.2, by simp [authTaskFinish, closeWithError, hc, ← hq1]⟩

/-- C2 witness: from live scopes and an open connection, a failed
authentication cancels the root scope, and a successful one leaves the
connection untouched. -/
theorem authTaskFinish_spec_w :
    (authTaskFinish (.error (.unexpectedVersion 9)) ⟨false, false⟩ ⟨none⟩).1.rootCancelled
      = true
    ∧ (authTaskFinish (.ok 1) ⟨false, false⟩ ⟨none⟩).2 = (⟨none⟩ : ConnState) := by
  have h := authTaskFinish_spec ⟨false, false⟩ ⟨none⟩ (.unexpectedVersion 9) 1 rfl
  exact ⟨h.1.1, h.2.2.2.2⟩

/-- handleAuth on a cleanly parsed control stream with a total token
derivation: the wire fields are given directly and GenToken is the total
function gt applied to the TLS state, the identifier and the stored
password. -/
def authResult (users : Nat → Option String) (tls : Nat)
    (gt : Nat → Nat → String → Nat) (v ty u tok : Nat) (c : ConnState) :
    Except AuthError Nat :=
  (handleAuth users tls (fun a b p => .ok (gt a b p)) (.ok ⟨v, .ok ty, .ok (u, tok)⟩) c).1

/-- C3: handleAuth succeeds, with identity the presented identifier,
exactly when the first byte is the recognized version, the command type
is authenticate, the identifier is in the credential store and the
derived token equals the presented one; an unrecognized first byte fails
with the unexpected-version error, a non-authenticate command with the
unexpected-command-type error, and an absent identifier or a token
mismatch with the authentication-failed error. -/
theorem handleAuth_characterization :
    ∀ users : Nat → Option String, ∀ tls : Nat, ∀ gt : Nat → Nat → String → Nat,
    ∀ v ty u tok : Nat, ∀ c : ConnState,
      (authResult users tls gt v ty u tok c = .ok u ↔
        (v = juicityVersion0 ∧ ty = tuicAuthenticateType ∧
          ∃ pw, users u = some pw ∧ gt tls u pw = tok))
      ∧ (∀ x, authResult users tls gt v ty u tok c = .ok x → x = u)
      ∧ (v ≠ juicityVersion0 →
          authResult users tls gt v ty u tok c = .error (.unexpectedVersion v))
      ∧ (v = juicityVersion0 → ty ≠ tuicAuthenticateType →
          authResult users tls gt v ty u tok c = .error (.unexpectedCmdType ty))
      ∧ (v = juicityVersion0 → ty = tuicAuthenticateType →
          (users u = none ∨ ∃ pw, users u = some pw ∧ gt tls u pw ≠ tok) →
          authResult users tls gt v ty u tok c = .error (.authenticationFailed u)) := by
  intro users tls gt v ty u tok c
  refine ⟨⟨fun hok => ?_, fun hyes => ?_⟩, fun x hx => ?_, fun hv => ?_,
    fun hv hty => ?_, fun hv hty hbad => ?_⟩
  · by_cases hv : v = juicityVersion0
    · by_cases hty : ty = tuicAuthenticateType
      · cases hu : users u with
        | none => simp [authResult, handleAuth, hv, hty, hu] at hok
        | some pw =>
          by_cases htok : gt tls u pw = tok
          · exact ⟨hv, hty, pw, rfl, htok⟩
          · simp [authResult, handleAuth, hv, hty, hu, htok] at hok
      · simp [authResult, handleAuth, hv, hty] at hok
    · simp [authResult, handleAuth, hv] at hok
  · obtain ⟨hv, hty, pw, hu, htok⟩ := hyes
    simp [authResult, handleAuth, hv, hty, hu, htok]
  · by_cases hv : v = juicityVersion0
    · by_cases hty : ty = tuicAuthenticateType
      · cases hu : users u with
        | none => simp [authResult, handleAuth, hv, hty, hu] at hx
        | some pw =>
          by_cases htok : gt tls u pw = tok
          · simp [authResult, handleAuth, hv, hty, hu, htok] at hx
            exact hx.symm
          · simp [authResult, handleAuth, hv, hty, hu, htok] at hx
      · simp [authResult, handleAuth, hv, hty] at hx
    · simp [authResult, handleAuth, hv] at hx
  · simp [authResult, handleAuth, hv]
  · simp [authResult, handleAuth, hv, hty]
  · rcases hbad with hnone | ⟨pw, hpw, hne⟩
    · simp [authResult, handleAuth, hv, hty, hnone]
    · simp [authResult, handleAuth, hv, hty, hpw, hne]

/-- A sample credential store holding identifier 5 with the password
named secret. -/
def usersW : Nat → Option String := fun u => if u = 5 then some "secret" else none

/-- A sample total token derivation returning 42 everywhere. -/
def gtW : Nat → Nat → String → Nat := fun _ _ _ => 42

/-- C3 witness: with the recognized version byte, the authenticate
command, identifier 5 in the store and a matching token, handleAuth
returns identity 5. -/
theorem handleAuth_characterization_w :
    authResult usersW 7 gtW 0 0 5 42 ⟨none⟩ = .ok 5 :=
  (handleAuth_characterization usersW 7 gtW 0 0 5 42 ⟨none⟩).1.mpr
    ⟨rfl, rfl, "secret", rfl, rfl⟩

/-- A credential store holding identifier 1 with secret s1 and nothing
else. -/
def usersC4 : Nat → Option String := fun u => if u = 1 then some "s1" else none

/-- A token derivation that yields 99 on every input. -/
def gtC4 : Nat → Nat → String → Except GoError Nat := fun _ _ _ => .ok 99

/-- A control stream presenting identifier 2, absent from the store. -/
def wireAbsentId : AuthWire := ⟨0, .ok 0, .ok (2, 99)⟩

/-- A control stream presenting the configured identifier 1 with token
42, while the derived token is 99. -/
def wireBadToken : AuthWire := ⟨0, .ok 0, .ok (1, 42)⟩

/-- C4 counterexample: on the same credential store, the attempt with an
absent identifier and the attempt with a configured identifier and a
mismatching token produce different transport closes: the codes agree
but the reason texts are the empty text and the authentication-failed
text, so the close does reveal whether the identifier exists. -/
theorem close_distinguishes_absent_identifier :
    observedClose usersC4 0 gtC4 (.ok wireAbsentId)
      ≠ observedClose usersC4 0 gtC4 (.ok wireBadToken)
    ∧ observedClose usersC4 0 gtC4 (.ok wireAbsentId)
        = some (tuicAuthenticationFailed, "")
    ∧ observedClose usersC4 0 gtC4 (.ok wireBadToken)
        = some (tuicAuthenticationFailed, "authentication failed") := by
  refine ⟨?_, rfl, rfl⟩
  decide

/-- C4 amended: for any two failing attempts on otherwise-identical
connections, one with an absent identifier and one with a configured
identifier and a mismatching token, the close code is the same
authentication-failure code; the reason text however differs between the
two cases: empty for the absent identifier (the close comes from the
handleConn goroutine alone) and the authentication-failed text for the
mismatch (handleAuth closes first and the later close is a no-op). -/
theorem close_code_same_reason_differs :
    ∀ users : Nat → Option String, ∀ tls : Nat, ∀ gt : Nat → Nat → String → Nat,
    ∀ ty u1 tok1 u2 tok2 : Nat, ∀ pw : String,
      ty = tuicAuthenticateType →
      users u1 = none →
      users u2 = some pw → gt tls u2 pw ≠ tok2 →
      observedClose users tls (fun a b p => .ok (gt a b p))
          (.ok ⟨juicityVersion0, .ok ty, .ok (u1, tok1)⟩)
        = some (tuicAuthenticationFailed, "")
      ∧ observedClose users tls (fun a b p => .ok (gt a b p))
          (.ok ⟨juicityVersion0, .ok ty, .ok (u2, tok2)⟩)
        = some (tuicAuthenticationFailed, "authentication failed") := by
  intro users tls gt ty u1 tok1 u2 tok2 pw hty h1 h2 hne
  constructor
  · simp [observedClose, handleAuth, authTaskFinish, closeWithError, hty, h1]
  · simp [observedClose, handleAuth, authTaskFinish, closeWithError, hty, h2, hne]

/-- C4 amended witness: at the sample store, the absent-identifier close
carries the empty reason and the mismatch close carries the
authentication-failed reason, under the same close code. -/
theorem close_code_same_reason_differs_w :
    observedClose usersC4 0 (fun a b p => .ok ((fun _ _ _ => 99) a b p))
        (.ok ⟨juicityVersion0, .ok tuicAuthenticateType, .ok (2, 99)⟩)
      = some (tuicAuthenticationFailed, "")
    ∧ observedClose usersC4 0 (fun a b p => .ok ((fun _ _ _ => 99) a b p))
        (.ok ⟨juicityVersion0, .ok tuicAuthenticateType, .ok (1, 42)⟩)
      = some (tuicAuthenticationFailed, "authentication failed") :=
  close_code_same_reason_differs usersC4 0 (fun _ _ _ => 99) tuicAuthenticateType
    2 99 1 42 "s1" rfl rfl rfl (by decide)

/-- C5 counterexample: the accept-loop failure induced by root-scope
cancellation carries context.Canceled, which is not a net timeout, so
the per-connection goroutine of Serve does log a warning for it, against
the claim that a root-cancellation-induced failure is silent. -/
theorem cancellation_failure_is_logged :
    serveWarnsOn acceptErrOnRootCancel = true := by decide

/-- C5 amended: the goroutine of Serve drops the handleConn error
without logging exactly when it is a net timeout; the failure induced by
root-scope cancellation carries context.Canceled, is not a timeout, and
is logged as a warning like any other failure; and the accept loop keeps
going whatever the per-connection results are, so no per-connection
failure terminates the listener or the other connections. -/
theorem serve_warning_policy :
    (∀ e : GoError, serveWarnsOn e = true ↔ e.isNetTimeout = false)
    ∧ serveWarnsOn acceptErrOnRootCancel = true
    ∧ (∀ rs1 rs2 : List (Option GoError),
        serveLoop (rs1 ++ rs2) = serveLoop rs1 ++ serveLoop rs2)
    ∧ (∀ e : GoError, ∀ rs : List (Option GoError),
        e ∈ serveLoop rs ↔ (some e ∈ rs ∧ e.isNetTimeout = false)) := by
  refine ⟨fun e => ?_, by decide, fun rs1 rs2 => ?_, fun e rs => ?_⟩
  · cases he : e.isNetTimeout <;> simp [serveWarnsOn, he]
  · induction rs1 with
    | nil => simp [serveLoop]
    | cons r rest ih =>
      cases r with
      | none => simp [serveLoop, ih]
      | some e =>
        by_cases ht : e.isNetTimeout <;> simp [serveLoop, ht, ih]
  · induction rs with
    | nil => simp [serveLoop]
    | cons r rest ih =>
      cases r with
      | none =>
        rw [show serveLoop (none :: rest) = serveLoop rest from rfl, ih]
        simp
      | some e2 =>
        cases ht : e2.isNetTimeout with
        | true =>
          have hred : serveLoop (some e2 :: rest) = serveLoop rest := by
            simp [serveLoop, ht]
          rw [hred, ih]
          constructor
          · rintro ⟨hm, hn⟩
            exact ⟨List.mem_cons_of_mem _ hm, hn⟩
          · rintro ⟨hmem, hn⟩
            rcases List.mem_cons.mp hmem with heq | hm
            · cases heq
              rw [ht] at hn
              cases hn
            · exact ⟨hm, hn⟩
        | false =>
          have hred : serveLoop (some e2 :: rest) = e2 :: serveLoop rest := by
            simp [serveLoop, ht]
          rw [hred]
          constructor
          · intro hmem
            rcases List.mem_cons.mp hmem with heq | hm
            · subst heq
              exact ⟨List.mem_cons_self _ _, ht⟩
            · obtain ⟨hm2, hn⟩ := ih.mp hm
              exact ⟨List.mem_cons_of_mem _ hm2, hn⟩
          · rintro ⟨hmem, hn⟩
            rcases List.mem_cons.mp hmem with heq | hm
            · cases heq
              exact List.mem_cons_self _ _
            · exact List.mem_cons_of_mem _ (ih.mpr ⟨hm, hn⟩)

/-- C5 amended witness: the concrete cancellation error is logged. -/
theorem serve_warning_policy_w :
    serveWarnsOn ctxCanceled = true :=
  (serve_warning_policy.1 ctxCanceled).mpr rfl

/-- Ceiling division by ten on Nat agrees with the ceiling of the exact
rational quotient, the quantity the spec text names. -/
theorem add_nine_div_ten_eq_ceil (n : ℕ) : (n + 9) / 10 = ⌈(n : ℚ) / 10⌉₊ := by
  apply le_antisymm
  · have h1 : ((n : ℚ)) / 10 ≤ (⌈(n : ℚ) / 10⌉₊ : ℚ) := Nat.le_ceil _
    have h2 : (n : ℚ) ≤ 10 * (⌈(n : ℚ) / 10⌉₊ : ℚ) := by
      rw [div_le_iff₀ (by norm_num : (0:ℚ) < 10)] at h1
      linarith
    have h3 : n ≤ 10 * ⌈(n : ℚ) / 10⌉₊ := by exact_mod_cast h2
    omega
  · rw [Nat.ceil_le]
    rw [div_le_iff₀ (by norm_num : (0:ℚ) < 10)]
    have hn : n ≤ ((n + 9) / 10) * 10 := by omega
    exact_mod_cast hn

/-- C7: Serve advertises limit plus the ceiling of a tenth of the limit
as the maximum of concurrent incoming bidirectional streams, uses the
same value for unidirectional streams, and with the limit of 100 that
New sets both advertised values are 110. -/
theorem serve_stream_headroom :
    (∀ n : ℕ, (serveQuicConfig n).maxIncomingStreams = n + ⌈(n : ℚ) / 10⌉₊
      ∧ (serveQuicConfig n).maxIncomingUniStreams
          = (serveQuicConfig n).maxIncomingStreams)
    ∧ (serveQuicConfig newMaxOpenIncomingStreams).maxIncomingStreams = 110
    ∧ (serveQuicConfig newMaxOpenIncomingStreams).maxIncomingUniStreams = 110 := by
  refine ⟨fun n => ⟨?_, rfl⟩, rfl, rfl⟩
  show advertisedMaxStreams n = n + ⌈(n : ℚ) / 10⌉₊
  rw [advertisedMaxStreams, add_nine_div_ten_eq_ceil]

/-- The credential-building loop fails exactly when some identifier text
in the list does not parse as a UUID. -/
theorem parseUsers_error_iff (uuidParse : String → Option Nat) :
    ∀ l : List (String × String),
      (∃ e, parseUsers uuidParse l = .error e) ↔ ∃ p ∈ l, uuidParse p.1 = none := by
  intro l
  induction l with
  | nil => simp [parseUsers]
  | cons hd tl ih =>
    obtain ⟨s, pw⟩ := hd
    constructor
    · rintro ⟨e, he⟩
      cases hu : uuidParse s with
      | none => exact ⟨(s, pw), by simp, hu⟩
      | some id =>
        simp only [parseUsers, hu] at he
        cases hrec : parseUsers uuidParse tl with
        | error e2 =>
          obtain ⟨p, hp, hpn⟩ := ih.mp ⟨e2, hrec⟩
          exact ⟨p, List.mem_cons_of_mem _ hp, hpn⟩
        | ok us =>
          rw [hrec] at he
          cases he
    · rintro ⟨p, hp, hpn⟩
      rcases List.mem_cons.mp hp with heq | hptl
      · subst heq
        exact ⟨⟨false, false, "parse uuid(" ++ s ++ ")"⟩, by simp [parseUsers, hpn]⟩
      · obtain ⟨e, he⟩ := ih.mpr ⟨p, hptl, hpn⟩
        cases hu : uuidParse s with
        | none =>
          exact ⟨⟨false, false, "parse uuid(" ++ s ++ ")"⟩, by simp [parseUsers, hu]⟩
        | some id => exact ⟨e, by simp [parseUsers, hu, he]⟩

/-- C8: New fails exactly when some configured identifier text does not
parse as a UUID, or the certificate and key pair cannot be loaded, or a
non-empty SendThrough does not parse as an address; on success the
selected dialer is the source-bound direct dialer when SendThrough is
configured and the full-cone direct dialer otherwise. -/
theorem New_characterization :
    ∀ uuidParse : String → Option Nat, ∀ loadKeyPair : String → String → Option Nat,
    ∀ parseAddr : String → Option Nat, ∀ opts : GoOptions,
      ((∃ e, New uuidParse loadKeyPair parseAddr opts = .error e) ↔
        ((∃ p ∈ opts.users, uuidParse p.1 = none)
          ∨ loadKeyPair opts.certificate opts.privateKey = none
          ∨ (opts.sendThrough ≠ "" ∧ parseAddr opts.sendThrough = none)))
      ∧ (∀ s : ServerModel, New uuidParse loadKeyPair parseAddr opts = .ok s →
          (opts.sendThrough = "" → s.dialer = .fullconeDirect)
          ∧ (opts.sendThrough ≠ "" →
              ∃ a, parseAddr opts.sendThrough = some a
                ∧ s.dialer = .directLaddr true a)) := by
  intro uuidParse loadKeyPair parseAddr opts
  cases hus : parseUsers uuidParse opts.users with
  | error e =>
    have hNew : New uuidParse loadKeyPair parseAddr opts = .error e := by
      simp only [New, hus]
    have hbad := (parseUsers_error_iff uuidParse opts.users).mp ⟨e, hus⟩
    refine ⟨⟨fun _ => Or.inl hbad, fun _ => ⟨e, hNew⟩⟩, fun s hs => ?_⟩
    rw [hNew] at hs
    exact Except.noConfusion hs
  | ok us =>
    have hgood : ¬∃ p ∈ opts.users, uuidParse p.1 = none := by
      intro hbad
      obtain ⟨e, he⟩ := (parseUsers_error_iff uuidParse opts.users).mpr hbad
      rw [hus] at he
      cases he
    cases hcert : loadKeyPair opts.certificate opts.privateKey with
    | none =>
      have hNew : New uuidParse loadKeyPair parseAddr opts
          = .error ⟨false, false, "load X509 key pair"⟩ := by
        simp only [New, hus, hcert]
      refine ⟨⟨fun _ => Or.inr (Or.inl rfl), fun _ => ⟨_, hNew⟩⟩, fun s hs => ?_⟩
      rw [hNew] at hs
      exact Except.noConfusion hs
    | some cert =>
      by_cases hst : opts.sendThrough = ""
      · have hNew : New uuidParse loadKeyPair parseAddr opts
            = .ok ⟨us, .fullconeDirect, 100, opts.congestionControl, 10, opts.fwmark⟩ := by
          simp only [New, hus, hcert]
          rw [if_pos hst]
        refine ⟨⟨fun h => ?_, fun h => ?_⟩, fun s hs => ?_⟩
        · obtain ⟨e2, he⟩ := h
          rw [hNew] at he
          exact Except.noConfusion he
        · rcases h with h | h | ⟨hne, -⟩
          · exact absurd h hgood
          · exact Option.noConfusion h
          · exact absurd hst hne
        · rw [hNew] at hs
          cases hs
          exact ⟨fun _ => rfl, fun hne => absurd hst hne⟩
      · cases haddr : parseAddr opts.sendThrough with
        | none =>
          have hNew : New uuidParse loadKeyPair parseAddr opts
              = .error ⟨false, false, "parse send_through"⟩ := by
            simp only [New, hus, hcert]
            rw [if_neg hst]
            simp only [haddr]
          refine ⟨⟨fun _ => Or.inr (Or.inr ⟨hst, rfl⟩), fun _ => ⟨_, hNew⟩⟩,
            fun s hs => ?_⟩
          rw [hNew] at hs
          exact Except.noConfusion hs
        | some a =>
          have hNew : New uuidParse loadKeyPair parseAddr opts
              = .ok ⟨us, .directLaddr true a, 100, opts.congestionControl, 10,
                  opts.fwmark⟩ := by
            simp only [New, hus, hcert]
            rw [if_neg hst]
            simp only [haddr]
          refine ⟨⟨fun h => ?_, fun h => ?_⟩, fun s hs => ?_⟩
          · obtain ⟨e2, he⟩ := h
            rw [hNew] at he
            exact Except.noConfusion he
          · rcases h with h | h | ⟨-, h⟩
            · exact absurd h hgood
            · exact Option.noConfusion h
            · exact Option.noConfusion h
          · rw [hNew] at hs
            cases hs
            exact ⟨fun heq => absurd heq hst, fun _ => ⟨a, rfl, rfl⟩⟩

/-- Sample options with one well-formed identifier and no SendThrough. -/
def optsW : GoOptions := ⟨[("u1", "pw")], "cert.pem", "key.pem", "bbr", 0, ""⟩

/-- A sample identifier parser accepting exactly the text u1. -/
def uuidParseW : String → Option Nat := fun s => if s = "u1" then some 1 else none

/-- A sample certificate loader that always succeeds. -/
def loadKeyPairW : String → String → Option Nat := fun _ _ => some 0

/-- A sample address parser that always fails. -/
def parseAddrW : String → Option Nat := fun _ => none

/-- C8 witness: on the sample options New succeeds and, SendThrough
being empty, the selected dialer is the full-cone direct dialer. -/
theorem New_characterization_w :
    (⟨[(1, "pw")], .fullconeDirect, 100, "bbr", 10, 0⟩ : ServerModel).dialer
      = .fullconeDirect :=
  ((New_characterization uuidParseW loadKeyPairW parseAddrW optsW).2
    ⟨[(1, "pw")], .fullconeDirect, 100, "bbr", 10, 0⟩ (by decide)).1 rfl

end Juicity
